import Mathlib

/-!
Verification of the deployment-orchestration core of the edge-terrarium
repository against its natural-language specification.

The Python source is shallowly embedded: pure computations become Lean
functions, and code whose behaviour depends on the outside world (subprocess
results, the filesystem, YAML parsing) becomes a function of an explicit
environment record that carries exactly the observations the code makes.
Every definition is translated from the source files named in its doc
comment.
-/

/- ------------------------------------------------------------------ -/
/- String helpers.  Python compares strings lexicographically by code
   point, `sub in s` is substring containment and `s.endswith(p)` is a
   suffix test; we model strings through their character lists so that
   everything reduces in the kernel. -/

/-- Lexicographic code-point comparison of character lists, as Python
`sorted` uses on strings. -/
def charListLe : List Char → List Char → Bool
  | [], _ => true
  | _ :: _, [] => false
  | a :: as, b :: bs => if a < b then true else if b < a then false else charListLe as bs

/-- Python string `<=` (lexicographic by code points). -/
def strLe (a b : String) : Bool := charListLe a.data b.data

/-- Python `sorted` on a list of strings (the order is total, so any
correct sort produces the same list; we use insertion sort because it
evaluates in the kernel). -/
def sortStrings (l : List String) : List String :=
  List.insertionSort (fun a b => strLe a b = true) l

/-- Helper for substring containment: does `pat` occur in the list? -/
def subOccurs (pat : List Char) : List Char → Bool
  | [] => pat.isPrefixOf []
  | c :: cs => pat.isPrefixOf (c :: cs) || subOccurs pat cs

/-- Python `pat in s` substring containment. -/
def strContains (s pat : String) : Bool := subOccurs pat.data s.data

/-- Python `s.endswith(pat)`. -/
def strEndsWith (s pat : String) : Bool := pat.data.isSuffixOf s.data

theorem sortStrings_perm (l : List String) : (sortStrings l).Perm l :=
  List.perm_insertionSort _ l

theorem sortStrings_length (l : List String) : (sortStrings l).length = l.length :=
  (sortStrings_perm l).length_eq

theorem mem_sortStrings {a : String} {l : List String} : a ∈ sortStrings l ↔ a ∈ l :=
  (sortStrings_perm l).mem_iff

/- ------------------------------------------------------------------ -/
/- Dependency Order Resolver.
   Source: src/terrarium_cli/cli/commands/deploy.py, _calculate_deployment_order
   (lines 518-562), and the textually identical
   src/terrarium_cli/platforms/k3s/k3s_manager.py, calculate_deployment_order
   (lines 306-350). -/

/-- One app descriptor as the resolver sees it: its `name` and its
`dependencies` list (deploy.py builds `app_deps[app.name] = app.dependencies`
and `app_names.add(app.name)` and uses nothing else). -/
structure AppDep where
  name : String
  dependencies : List String
deriving DecidableEq, Repr

/-- The `app_deps` dict lookup: `app_deps[app.name] = app.dependencies` is
assigned in list order, so for duplicate names the last assignment wins;
a name that is not a key yields no dependencies (such a name is never
looked up by the Python code). -/
def depsOf (apps : List AppDep) (n : String) : List String :=
  match apps.reverse.find? (fun a => a.name = n) with
  | some a => a.dependencies
  | none => []

/-- The name set `app_names` of the input apps, as a list. -/
def namesOf (apps : List AppDep) : List String := apps.map (·.name)

/-- The dependency edge relation of the resolver's graph: service `a`
declares a dependency on `d`. -/
def Dep (apps : List AppDep) (a d : String) : Prop := d ∈ depsOf apps a

/-- `enum` is a possible iteration order of the Python set `app_names`:
a duplicate-free list with exactly the input names as elements.  CPython
leaves the iteration order of a `set` of strings unspecified (it varies
with hash randomization), so the embedding takes it as a parameter. -/
def ValidEnum (apps : List AppDep) (enum : List String) : Prop :=
  enum.Nodup ∧ (∀ n ∈ enum, n ∈ namesOf apps) ∧ (∀ n ∈ namesOf apps, n ∈ enum)

instance (apps : List AppDep) (enum : List String) : Decidable (ValidEnum apps enum) := by
  unfold ValidEnum; infer_instance

/-- A pass of the resolver: the `ready_to_deploy` list collected by
scanning `app_names` in iteration order, keeping the not-yet-deployed
services whose dependencies are all deployed. -/
def readyPass (enum : List String) (deps : String → List String)
    (deployed : List String) : List String :=
  enum.filter (fun n => decide (n ∉ deployed ∧ ∀ d ∈ deps n, d ∈ deployed))

/-- The `while len(order) < len(apps)` loop of the resolver.  Returns the
final `order` plus a flag recording whether the circular-dependency
warning was printed.  `fuel` is a structural bound on the number of
iterations: every iteration that continues extends `order` by at least
one element, so `total + 1` fuel is never exhausted (the fuel-zero branch
returns `order`, which coincides with the loop's exit when
`len(order) >= total`; the invariant `total < fuel + order.length`
maintained by all theorems below makes the fuel-zero case unreachable
anyway). -/
def resolveLoop (enum : List String) (deps : String → List String) (total : Nat) :
    Nat → List String → List String → List String × Bool
  | 0, _, order => (order, false)
  | fuel + 1, deployed, order =>
    if order.length < total then
      if readyPass enum deps deployed = [] then
        -- circular or missing dependency: print the warning and append
        -- the remaining services in the set's iteration order (the
        -- Python code does NOT sort `remaining`), then break
        (order ++ enum.filter (fun n => decide (n ∉ deployed)), true)
      else
        resolveLoop enum deps total fuel (deployed ++ readyPass enum deps deployed)
          (order ++ sortStrings (readyPass enum deps deployed))
    else (order, false)

/-- `_calculate_deployment_order(apps)` / `calculate_deployment_order(apps)`:
builds the dependency dict and name set from `apps` and runs the
topological-sort loop; `enum` is the iteration order of the set
`app_names` (see `ValidEnum`).  This is the list the Python function
returns. -/
def calculate_deployment_order (apps : List AppDep) (enum : List String) : List String :=
  (resolveLoop enum (depsOf apps) apps.length (apps.length + 1) [] []).1

/-- Whether the resolver printed the `Possible circular dependency
detected` warning during `calculate_deployment_order`. -/
def resolverWarned (apps : List AppDep) (enum : List String) : Bool :=
  (resolveLoop enum (depsOf apps) apps.length (apps.length + 1) [] []).2

/- ------------------------------------------------------------------ -/
/- Resolver lemmas. -/

theorem mem_readyPass {enum : List String} {deps : String → List String}
    {deployed : List String} {n : String} :
    n ∈ readyPass enum deps deployed ↔
      n ∈ enum ∧ n ∉ deployed ∧ ∀ d ∈ deps n, d ∈ deployed := by
  unfold readyPass
  simp [List.mem_filter]

theorem readyPass_nodup {enum : List String} {deps : String → List String}
    {deployed : List String} (h : enum.Nodup) :
    (readyPass enum deps deployed).Nodup :=
  List.Nodup.filter _ h

/-- A declared dependency edge only leaves a name that is a key of the
dependency dict, i.e. an input service name. -/
theorem Dep.mem_names {apps : List AppDep} {a d : String} (h : Dep apps a d) :
    a ∈ namesOf apps := by
  unfold Dep depsOf at h
  cases hf : apps.reverse.find? (fun x => x.name = a) with
  | none => rw [hf] at h; simp at h
  | some app =>
    rw [hf] at h
    have hmem : app ∈ apps := List.mem_reverse.mp (List.mem_of_find?_eq_some hf)
    have hname : app.name = a := by
      have := List.find?_some hf
      simpa using this
    exact hname ▸ List.mem_map_of_mem (·.name) hmem

/-- If a rank function strictly decreases along every declared dependency
edge, the dependency graph has no cycles.  Used to discharge acyclicity
at concrete inputs. -/
theorem acyclic_of_rank (apps : List AppDep) (rank : String → Nat)
    (h : ∀ a ∈ namesOf apps, ∀ d ∈ depsOf apps a, rank d < rank a) :
    ∀ x, ¬ Relation.TransGen (Dep apps) x x := by
  have hdesc : ∀ a b, Relation.TransGen (Dep apps) a b → rank b < rank a := by
    intro a b hab
    induction hab with
    | single hd => exact h _ (Dep.mem_names hd) _ hd
    | tail _ hd ih => exact lt_trans (h _ (Dep.mem_names hd) _ hd) ih
  intro x hx
  exact lt_irrefl _ (hdesc x x hx)

/-- In a finite acyclic dependency graph, every nonempty set of remaining
services contains one with no dependency inside the set. -/
theorem exists_dep_min (enum : List String) (deps : String → List String)
    (hacyc : ∀ x, ¬ Relation.TransGen (fun a d => a ∈ enum ∧ d ∈ deps a) x x)
    (remaining : List String) (hsub : ∀ n ∈ remaining, n ∈ enum)
    (hne : remaining ≠ []) :
    ∃ n ∈ remaining, ∀ d ∈ deps n, d ∉ remaining := by
  classical
  have hfin : {x : String | x ∈ enum}.Finite := enum.finite_toSet
  haveI : Finite {x : String | x ∈ enum} := hfin.to_subtype
  let E : String → String → Prop := fun a d => a ∈ enum ∧ d ∈ deps a
  let r : {x : String // x ∈ enum} → {x : String // x ∈ enum} → Prop :=
    fun d n => d.1 ∈ deps n.1
  have hlift : ∀ a b, Relation.TransGen r a b →
      Relation.TransGen E b.1 a.1 := by
    intro a b hab
    induction hab with
    | @single b' hd => exact Relation.TransGen.single ⟨b'.2, hd⟩
    | @tail b' c' _ hd ih => exact Relation.TransGen.head ⟨c'.2, hd⟩ ih
  haveI : IsTrans {x : String // x ∈ enum} (Relation.TransGen r) := inferInstance
  haveI : IsIrrefl {x : String // x ∈ enum} (Relation.TransGen r) :=
    ⟨fun x hx => hacyc x.1 (hlift x x hx)⟩
  have hwfT : WellFounded (Relation.TransGen r) :=
    Finite.wellFounded_of_trans_of_irrefl _
  have hwf : WellFounded r :=
    Subrelation.wf (fun h => Relation.TransGen.single h) hwfT
  obtain ⟨n0, hn0⟩ := List.exists_mem_of_ne_nil remaining hne
  obtain ⟨m, hm, hmin⟩ := hwf.has_min {x | x.1 ∈ remaining}
    ⟨⟨n0, hsub n0 hn0⟩, hn0⟩
  exact ⟨m.1, hm, fun d hd hdr => hmin ⟨d, hsub d hdr⟩ hdr hd⟩

/-- Acyclic + closed dependencies give progress: while some service is not
yet deployed, the ready pass is nonempty (so the fallback branch is never
taken). -/
theorem readyPass_ne_nil (enum : List String) (deps : String → List String)
    (hclosed : ∀ n ∈ enum, ∀ d ∈ deps n, d ∈ enum)
    (hacyc : ∀ x, ¬ Relation.TransGen (fun a d => a ∈ enum ∧ d ∈ deps a) x x)
    (deployed : List String)
    (hne : enum.filter (fun n => decide (n ∉ deployed)) ≠ []) :
    readyPass enum deps deployed ≠ [] := by
  obtain ⟨n, hn, hmin⟩ := exists_dep_min enum deps hacyc
    (enum.filter (fun n => decide (n ∉ deployed)))
    (fun n hmem => (List.mem_filter.mp hmem).1) hne
  rcases List.mem_filter.mp hn with ⟨hnenum, hnd⟩
  have hnd : n ∉ deployed := by simpa using hnd
  apply List.ne_nil_of_mem (a := n)
  refine mem_readyPass.mpr ⟨hnenum, hnd, ?_⟩
  intro d hd
  by_contra hdep
  exact hmin d hd (List.mem_filter.mpr ⟨hclosed n hnenum d hd, by simpa using hdep⟩)

/-- Invariant step: the new `deployed`/`order`/nodup/coverage facts after
one successful pass. -/
theorem pass_invariants (enum : List String) (deps : String → List String)
    {deployed order : List String}
    (hdo : ∀ n, n ∈ deployed ↔ n ∈ order)
    (hnd : order.Nodup)
    (hsub : ∀ n ∈ order, n ∈ enum)
    (henum : enum.Nodup) :
    (∀ n, n ∈ deployed ++ readyPass enum deps deployed ↔
        n ∈ order ++ sortStrings (readyPass enum deps deployed)) ∧
      (order ++ sortStrings (readyPass enum deps deployed)).Nodup ∧
      (∀ n ∈ order ++ sortStrings (readyPass enum deps deployed), n ∈ enum) := by
  refine ⟨?_, ?_, ?_⟩
  · intro n
    simp only [List.mem_append, mem_sortStrings]
    exact or_congr (hdo n) Iff.rfl
  · refine hnd.append ((sortStrings_perm _).symm.nodup (readyPass_nodup henum)) ?_
    intro a ha hs
    have := (mem_readyPass.mp (mem_sortStrings.mp hs)).2.1
    exact this ((hdo a).mpr ha)
  · intro n hn
    rcases List.mem_append.mp hn with h | h
    · exact hsub n h
    · exact (mem_readyPass.mp (mem_sortStrings.mp h)).1

/-- Core coverage lemma for the resolver loop: under the stated
invariants, the loop's output list is duplicate-free and its elements are
exactly the elements of `enum`. -/
theorem resolveLoop_cover (enum : List String) (deps : String → List String)
    (total : Nat) (henum : enum.Nodup) (htot : enum.length ≤ total) :
    ∀ fuel deployed order,
      total < fuel + order.length →
      (∀ n, n ∈ deployed ↔ n ∈ order) →
      order.Nodup →
      (∀ n ∈ order, n ∈ enum) →
      (resolveLoop enum deps total fuel deployed order).1.Nodup ∧
        ∀ n, n ∈ (resolveLoop enum deps total fuel deployed order).1 ↔ n ∈ enum := by
  intro fuel
  induction fuel with
  | zero =>
    intro deployed order hlen hdo hnd hsub
    exfalso
    have h1 : order.length ≤ enum.length := (hnd.subperm hsub).length_le
    omega
  | succ fuel ih =>
    intro deployed order hlen hdo hnd hsub
    rw [resolveLoop]
    by_cases hcond : order.length < total
    · rw [if_pos hcond]
      by_cases hready : readyPass enum deps deployed = []
      · rw [if_pos hready]
        constructor
        · refine hnd.append (henum.filter _) ?_
          intro a ha hf
          have h2 := List.mem_filter.mp hf
          exact (of_decide_eq_true h2.2) ((hdo a).mpr ha)
        · intro n
          simp only [List.mem_append, List.mem_filter]
          constructor
          · rintro (h | h)
            · exact hsub n h
            · exact h.1
          · intro hn
            by_cases hdep : n ∈ deployed
            · exact Or.inl ((hdo n).mp hdep)
            · exact Or.inr ⟨hn, by simpa using hdep⟩
      · rw [if_neg hready]
        obtain ⟨hdo', hnd', hsub'⟩ := pass_invariants enum deps hdo hnd hsub henum
        refine ih _ _ ?_ hdo' hnd' hsub'
        have hpos : 0 < (readyPass enum deps deployed).length :=
          List.length_pos.mpr hready
        have := sortStrings_length (readyPass enum deps deployed)
        simp only [List.length_append]
        omega
    · rw [if_neg hcond]
      have hsp : order.Subperm enum := hnd.subperm hsub
      have hperm : order.Perm enum :=
        hsp.perm_of_length_le (by omega)
      exact ⟨hnd, fun n => hperm.mem_iff⟩

/-- One pass preserves the ordering invariant: every dependency of a
listed service occurs in the list strictly before it. -/
theorem ordInv_step (enum : List String) (deps : String → List String)
    {deployed order : List String}
    (hdo : ∀ n, n ∈ deployed ↔ n ∈ order)
    (hinv : ∀ a ∈ order, ∀ d ∈ deps a,
      d ∈ order ∧ order.indexOf d < order.indexOf a) :
    ∀ a ∈ order ++ sortStrings (readyPass enum deps deployed), ∀ d ∈ deps a,
      d ∈ order ++ sortStrings (readyPass enum deps deployed) ∧
        (order ++ sortStrings (readyPass enum deps deployed)).indexOf d <
          (order ++ sortStrings (readyPass enum deps deployed)).indexOf a := by
  intro a ha d hd
  rcases List.mem_append.mp ha with hao | has
  · obtain ⟨hdmem, hidx⟩ := hinv a hao d hd
    refine ⟨List.mem_append.mpr (Or.inl hdmem), ?_⟩
    rw [List.indexOf_append_of_mem hdmem, List.indexOf_append_of_mem hao]
    exact hidx
  · obtain ⟨haenum, hadep, hdeps⟩ := mem_readyPass.mp (mem_sortStrings.mp has)
    have hdord : d ∈ order := (hdo d).mp (hdeps d hd)
    have hano : a ∉ order := fun h => hadep ((hdo a).mpr h)
    refine ⟨List.mem_append.mpr (Or.inl hdord), ?_⟩
    rw [List.indexOf_append_of_mem hdord, List.indexOf_append_of_not_mem hano]
    exact lt_of_lt_of_le (List.indexOf_lt_length.mpr hdord) (Nat.le_add_right _ _)

/-- Core ordering lemma for the resolver loop: with closed, acyclic
dependencies, the output lists every dependency strictly before each
service that declares it. -/
theorem resolveLoop_topo (enum : List String) (deps : String → List String)
    (total : Nat) (henum : enum.Nodup) (htot : enum.length ≤ total)
    (hclosed : ∀ n ∈ enum, ∀ d ∈ deps n, d ∈ enum)
    (hacyc : ∀ x, ¬ Relation.TransGen (fun a d => a ∈ enum ∧ d ∈ deps a) x x) :
    ∀ fuel deployed order,
      total < fuel + order.length →
      (∀ n, n ∈ deployed ↔ n ∈ order) →
      order.Nodup →
      (∀ n ∈ order, n ∈ enum) →
      (∀ a ∈ order, ∀ d ∈ deps a,
        d ∈ order ∧ order.indexOf d < order.indexOf a) →
      ∀ a ∈ (resolveLoop enum deps total fuel deployed order).1, ∀ d ∈ deps a,
        d ∈ (resolveLoop enum deps total fuel deployed order).1 ∧
          (resolveLoop enum deps total fuel deployed order).1.indexOf d <
            (resolveLoop enum deps total fuel deployed order).1.indexOf a := by
  intro fuel
  induction fuel with
  | zero =>
    intro deployed order hlen hdo hnd hsub hinv
    exfalso
    have h1 : order.length ≤ enum.length := (hnd.subperm hsub).length_le
    omega
  | succ fuel ih =>
    intro deployed order hlen hdo hnd hsub hinv
    rw [resolveLoop]
    by_cases hcond : order.length < total
    · rw [if_pos hcond]
      by_cases hready : readyPass enum deps deployed = []
      · rw [if_pos hready]
        have hrem : enum.filter (fun n => decide (n ∉ deployed)) = [] := by
          by_contra hne
          exact readyPass_ne_nil enum deps hclosed hacyc deployed hne hready
        rw [hrem, List.append_nil]
        exact hinv
      · rw [if_neg hready]
        obtain ⟨hdo', hnd', hsub'⟩ := pass_invariants enum deps hdo hnd hsub henum
        refine ih _ _ ?_ hdo' hnd' hsub' (ordInv_step enum deps hdo hinv)
        have hpos : 0 < (readyPass enum deps deployed).length :=
          List.length_pos.mpr hready
        have := sortStrings_length (readyPass enum deps deployed)
        simp only [List.length_append]
        omega
    · rw [if_neg hcond]
      exact hinv

/- ------------------------------------------------------------------ -/
/- Claim-level theorems for the resolver. -/

/-- C3: for every list of app descriptors (cycles included) the resolver
terminates (it is a total function) and returns a list that contains
every input service name exactly once: the output is duplicate-free and
its elements are exactly the input names. -/
theorem resolver_returns_each_name_exactly_once
    (apps : List AppDep) (enum : List String) (hv : ValidEnum apps enum) :
    (calculate_deployment_order apps enum).Nodup ∧
      ∀ n, n ∈ calculate_deployment_order apps enum ↔ n ∈ namesOf apps := by
  unfold calculate_deployment_order
  obtain ⟨hnd, hsub, hsup⟩ := hv
  have htot : enum.length ≤ apps.length := by
    have := (hnd.subperm hsub).length_le
    simpa [namesOf] using this
  have h := resolveLoop_cover enum (depsOf apps) apps.length hnd htot
    (apps.length + 1) [] [] (by omega) (by simp) (by simp) (by simp)
  refine ⟨h.1, fun n => ?_⟩
  rw [h.2 n]
  exact ⟨hsub n, hsup n⟩

/-- Witness for C3 at the two-service cycle X <-> Y. -/
theorem resolver_returns_each_name_exactly_once_witness :
    ValidEnum [⟨"X", ["Y"]⟩, ⟨"Y", ["X"]⟩] ["X", "Y"] ∧
      ((calculate_deployment_order [⟨"X", ["Y"]⟩, ⟨"Y", ["X"]⟩] ["X", "Y"]).Nodup ∧
        ∀ n, n ∈ calculate_deployment_order [⟨"X", ["Y"]⟩, ⟨"Y", ["X"]⟩] ["X", "Y"] ↔
          n ∈ namesOf [⟨"X", ["Y"]⟩, ⟨"Y", ["X"]⟩]) :=
  ⟨by decide, resolver_returns_each_name_exactly_once _ _ (by decide)⟩

/-- C1 (amended): when every declared dependency is itself an input
service name and the dependency graph has no cycles, the resolver returns
a permutation of the input service names in which every declared
dependency appears strictly before each service that depends on it. -/
theorem resolver_topological_order
    (apps : List AppDep) (enum : List String) (hv : ValidEnum apps enum)
    (hclosed : ∀ a ∈ namesOf apps, ∀ d ∈ depsOf apps a, d ∈ namesOf apps)
    (hacyc : ∀ x, ¬ Relation.TransGen (Dep apps) x x) :
    (calculate_deployment_order apps enum).Perm enum ∧
      ∀ a d, Dep apps a d →
        (calculate_deployment_order apps enum).indexOf d <
          (calculate_deployment_order apps enum).indexOf a := by
  unfold calculate_deployment_order
  obtain ⟨hnd, hsub, hsup⟩ := hv
  have htot : enum.length ≤ apps.length := by
    have := (hnd.subperm hsub).length_le
    simpa [namesOf] using this
  have hclosed' : ∀ n ∈ enum, ∀ d ∈ depsOf apps n, d ∈ enum := fun n hn d hd =>
    hsup _ (hclosed n (hsub n hn) d hd)
  have hacyc' : ∀ x,
      ¬ Relation.TransGen (fun a d => a ∈ enum ∧ d ∈ depsOf apps a) x x :=
    fun x hx => hacyc x (Relation.TransGen.mono (fun _ _ hab => hab.2) hx)
  have hcov := resolveLoop_cover enum (depsOf apps) apps.length hnd htot
    (apps.length + 1) [] [] (by omega) (by simp) (by simp) (by simp)
  have htopo := resolveLoop_topo enum (depsOf apps) apps.length hnd htot hclosed' hacyc'
    (apps.length + 1) [] [] (by omega) (by simp) (by simp) (by simp) (by simp)
  constructor
  · exact (hcov.1.subperm fun n hn => (hcov.2 n).mp hn).antisymm
      (hnd.subperm fun n hn => (hcov.2 n).mpr hn)
  · intro a d hdep
    have ha : a ∈ calculate_deployment_order apps enum :=
      (hcov.2 a).mpr (hsup a (Dep.mem_names hdep))
    exact (htopo a ha d hdep).2

/-- Counterexample to C1 as stated: the single descriptor A depending on
the missing name "ghost" has an acyclic dependency graph, yet the output
["A"] does not place the declared dependency "ghost" strictly before A
(it cannot: "ghost" is not an input service). -/
theorem resolver_topological_order_cex :
    (∀ x, ¬ Relation.TransGen (Dep [⟨"A", ["ghost"]⟩]) x x) ∧
      ValidEnum [⟨"A", ["ghost"]⟩] ["A"] ∧
      calculate_deployment_order [⟨"A", ["ghost"]⟩] ["A"] = ["A"] ∧
      ¬ ((calculate_deployment_order [⟨"A", ["ghost"]⟩] ["A"]).indexOf "ghost" <
          (calculate_deployment_order [⟨"A", ["ghost"]⟩] ["A"]).indexOf "A") :=
  ⟨acyclic_of_rank _ (fun s => if s = "A" then 1 else 0) (by decide),
    by decide, by decide, by decide⟩

/-- Witness for the amended C1 at the chain A <- B <- C. -/
theorem resolver_topological_order_witness :
    ValidEnum [⟨"A", []⟩, ⟨"B", ["A"]⟩, ⟨"C", ["B"]⟩] ["C", "B", "A"] ∧
      (∀ a ∈ namesOf [⟨"A", []⟩, ⟨"B", ["A"]⟩, ⟨"C", ["B"]⟩],
        ∀ d ∈ depsOf [⟨"A", []⟩, ⟨"B", ["A"]⟩, ⟨"C", ["B"]⟩] a,
          d ∈ namesOf [⟨"A", []⟩, ⟨"B", ["A"]⟩, ⟨"C", ["B"]⟩]) ∧
      (∀ x, ¬ Relation.TransGen (Dep [⟨"A", []⟩, ⟨"B", ["A"]⟩, ⟨"C", ["B"]⟩]) x x) ∧
      ((calculate_deployment_order [⟨"A", []⟩, ⟨"B", ["A"]⟩, ⟨"C", ["B"]⟩]
          ["C", "B", "A"]).Perm ["C", "B", "A"] ∧
        ∀ a d, Dep [⟨"A", []⟩, ⟨"B", ["A"]⟩, ⟨"C", ["B"]⟩] a d →
          (calculate_deployment_order [⟨"A", []⟩, ⟨"B", ["A"]⟩, ⟨"C", ["B"]⟩]
            ["C", "B", "A"]).indexOf d <
            (calculate_deployment_order [⟨"A", []⟩, ⟨"B", ["A"]⟩, ⟨"C", ["B"]⟩]
              ["C", "B", "A"]).indexOf a) :=
  ⟨by decide, by decide,
    acyclic_of_rank _ (fun s => if s = "C" then 2 else if s = "B" then 1 else 0)
      (by decide),
    resolver_topological_order _ _ (by decide) (by decide)
      (acyclic_of_rank _ (fun s => if s = "C" then 2 else if s = "B" then 1 else 0)
        (by decide))⟩

/-- Counterexample to C2: for the two-service cycle X <-> Y, both
["Y", "X"] and ["X", "Y"] are possible iteration orders of the name set,
and the fallback appends the remaining services in that iteration order:
the output for the order ["Y", "X"] is ["Y", "X"], which is not
alphabetically sorted, and differs from the output for ["X", "Y"] - so
the output is not identical across runs (CPython randomizes string
hashes, hence set order, across processes). -/
theorem resolver_fallback_cex :
    ValidEnum [⟨"X", ["Y"]⟩, ⟨"Y", ["X"]⟩] ["Y", "X"] ∧
      ValidEnum [⟨"X", ["Y"]⟩, ⟨"Y", ["X"]⟩] ["X", "Y"] ∧
      calculate_deployment_order [⟨"X", ["Y"]⟩, ⟨"Y", ["X"]⟩] ["Y", "X"] = ["Y", "X"] ∧
      calculate_deployment_order [⟨"X", ["Y"]⟩, ⟨"Y", ["X"]⟩] ["Y", "X"] ≠
        sortStrings (calculate_deployment_order [⟨"X", ["Y"]⟩, ⟨"Y", ["X"]⟩] ["Y", "X"]) ∧
      calculate_deployment_order [⟨"X", ["Y"]⟩, ⟨"Y", ["X"]⟩] ["Y", "X"] ≠
        calculate_deployment_order [⟨"X", ["Y"]⟩, ⟨"Y", ["X"]⟩] ["X", "Y"] := by
  refine ⟨by decide, by decide, by decide, by decide, by decide⟩

/-- Membership-equivalent deployed sets make the same pass: the ready
filter only tests membership in `deployed`. -/
theorem readyPass_congr (enum : List String) (deps : String → List String)
    {deployed done : List String} (h : ∀ n, n ∈ deployed ↔ n ∈ done) :
    readyPass enum deps deployed = readyPass enum deps done := by
  unfold readyPass
  apply List.filter_congr
  intro n _
  apply decide_eq_decide.mpr
  constructor
  · rintro ⟨hn, hd⟩
    exact ⟨fun hc => hn ((h n).mpr hc), fun d hdd => (h d).mp (hd d hdd)⟩
  · rintro ⟨hn, hd⟩
    exact ⟨fun hc => hn ((h n).mp hc), fun d hdd => (h d).mpr (hd d hdd)⟩

/-- Every run of the resolver loop that printed the warning produced its
output by appending, to the order built so far, the services not yet
deployed at the stuck pass, in the iteration order of the name set. -/
theorem resolveLoop_warned_fallback (enum : List String)
    (deps : String → List String) (total : Nat) (henum : enum.Nodup) :
    ∀ fuel deployed order,
      (∀ n, n ∈ deployed ↔ n ∈ order) →
      order.Nodup →
      (∀ n ∈ order, n ∈ enum) →
      (resolveLoop enum deps total fuel deployed order).2 = true →
      ∃ done, done.Nodup ∧ (∀ n ∈ done, n ∈ enum) ∧
        readyPass enum deps done = [] ∧
        (resolveLoop enum deps total fuel deployed order).1 =
          done ++ enum.filter (fun n => decide (n ∉ done)) := by
  intro fuel
  induction fuel with
  | zero =>
    intro deployed order hdo hnd hsub hw
    simp [resolveLoop] at hw
  | succ fuel ih =>
    intro deployed order hdo hnd hsub hw
    rw [resolveLoop] at hw ⊢
    by_cases hcond : order.length < total
    · rw [if_pos hcond] at hw ⊢
      by_cases hready : readyPass enum deps deployed = []
      · rw [if_pos hready] at hw ⊢
        refine ⟨order, hnd, hsub, ?_, ?_⟩
        · rw [← readyPass_congr enum deps hdo]
          exact hready
        · show order ++ enum.filter (fun n => decide (n ∉ deployed)) =
            order ++ enum.filter (fun n => decide (n ∉ order))
          congr 1
          apply List.filter_congr
          intro n _
          apply decide_eq_decide.mpr
          exact not_congr (hdo n)
      · rw [if_neg hready] at hw ⊢
        obtain ⟨hdo', hnd', hsub'⟩ := pass_invariants enum deps hdo hnd hsub henum
        exact ih _ _ hdo' hnd' hsub' hw
    · rw [if_neg hcond] at hw
      simp at hw

/-- C2 (amended): whenever a resolution pass adds no services while the
loop is still running, the resolver prints the circular-dependency
warning and appends the not-yet-deployed services in the iteration order
of the name set - NOT alphabetically (first conjunct, covering every
reachable loop state including those after partial progress);
consequently every full run that warned produced its output as the
progress prefix built so far followed by the remaining names in
set-iteration order (second conjunct), so the output is deterministic
only relative to a fixed set-iteration order. -/
theorem resolver_fallback_enum_order :
    (∀ (enum : List String) (deps : String → List String)
        (total fuel : Nat) (deployed order : List String),
      total < fuel + order.length →
      order.length < total →
      readyPass enum deps deployed = [] →
      resolveLoop enum deps total fuel deployed order =
        (order ++ enum.filter (fun n => decide (n ∉ deployed)), true)) ∧
    ∀ (apps : List AppDep) (enum : List String), ValidEnum apps enum →
      resolverWarned apps enum = true →
      ∃ done, done.Nodup ∧ (∀ n ∈ done, n ∈ enum) ∧
        readyPass enum (depsOf apps) done = [] ∧
        calculate_deployment_order apps enum =
          done ++ enum.filter (fun n => decide (n ∉ done)) := by
  constructor
  · intro enum deps total fuel deployed order hfuel hcond hready
    cases fuel with
    | zero => omega
    | succ fuel => rw [resolveLoop, if_pos hcond, if_pos hready]
  · intro apps enum hv hw
    obtain ⟨hnd, _, _⟩ := hv
    unfold resolverWarned at hw
    unfold calculate_deployment_order
    exact resolveLoop_warned_fallback enum (depsOf apps) apps.length hnd
      (apps.length + 1) [] [] (by simp) (by simp) (by simp) hw

/-- Witness for the amended C2 at a fallback reached after partial
progress: service A has no dependencies and X and Y form a cycle, so the
first pass deploys A and the second pass is stuck with X and Y
remaining; they are appended in the set-iteration order ["Y", "X"], and
the full warned run decomposes as that prefix plus remainder. -/
theorem resolver_fallback_enum_order_witness :
    (3 < 3 + (["A"] : List String).length ∧
      (["A"] : List String).length < 3 ∧
      readyPass ["A", "Y", "X"]
        (depsOf [⟨"A", []⟩, ⟨"X", ["Y"]⟩, ⟨"Y", ["X"]⟩]) ["A"] = [] ∧
      resolveLoop ["A", "Y", "X"]
          (depsOf [⟨"A", []⟩, ⟨"X", ["Y"]⟩, ⟨"Y", ["X"]⟩]) 3 3 ["A"] ["A"] =
        (["A"] ++ (["A", "Y", "X"].filter
          (fun n => decide (n ∉ (["A"] : List String)))), true)) ∧
    (ValidEnum [⟨"A", []⟩, ⟨"X", ["Y"]⟩, ⟨"Y", ["X"]⟩] ["A", "Y", "X"] ∧
      resolverWarned [⟨"A", []⟩, ⟨"X", ["Y"]⟩, ⟨"Y", ["X"]⟩] ["A", "Y", "X"] = true ∧
      ∃ done, done.Nodup ∧ (∀ n ∈ done, n ∈ ["A", "Y", "X"]) ∧
        readyPass ["A", "Y", "X"]
          (depsOf [⟨"A", []⟩, ⟨"X", ["Y"]⟩, ⟨"Y", ["X"]⟩]) done = [] ∧
        calculate_deployment_order [⟨"A", []⟩, ⟨"X", ["Y"]⟩, ⟨"Y", ["X"]⟩]
            ["A", "Y", "X"] =
          done ++ ["A", "Y", "X"].filter (fun n => decide (n ∉ done))) :=
  ⟨⟨by decide, by decide, by decide,
      resolver_fallback_enum_order.1 _ _ _ _ _ _ (by decide) (by decide) (by decide)⟩,
    by decide, by decide,
    resolver_fallback_enum_order.2 _ _ (by decide) (by decide)⟩

/- ------------------------------------------------------------------ -/
/- Cluster health check.
   Source: src/terrarium_cli/cli/commands/deploy.py, _check_k3s_cluster_health
   (lines 228-254), and src/terrarium_cli/platforms/k3s/k3s_manager.py,
   check_k3s_cluster_health (lines 59-99). -/

/-- Observations made by `_check_k3s_cluster_health` (deploy.py):
the stdout of `k3d cluster list` (`none` when `run_command` raised a
`ShellError`), and whether `kubectl cluster-info` exited zero (a nonzero
exit raises `CalledProcessError` because of `check=True`). -/
structure DeployHealthEnv where
  listStdout : Option String
  kubectlOk : Bool

/-- `_check_k3s_cluster_health` (deploy.py lines 228-254).  Returns the
boolean result together with whether `_cleanup_corrupted_k3s_cluster`
was invoked: absent cluster (name not a substring of the list output, or
the list command failing) returns false without cleanup; present cluster
with failing `kubectl cluster-info` prints the corruption warning, runs
the cleanup and returns false; present cluster with working kubectl
returns true. -/
def deployCmd_check_k3s_cluster_health (env : DeployHealthEnv) : Bool × Bool :=
  match env.listStdout with
  | none => (false, false)
  | some out =>
    if strContains out "edge-terrarium" = false then (false, false)
    else if env.kubectlOk then (true, false)
    else (false, true)

/-- One entry of the `k3d cluster list -o json` output as
`check_k3s_cluster_health` reads it: the `name` field and the
`serversRunning` field (`cluster.get('serversRunning', 0)` defaults to
0). -/
structure K3sCluster where
  name : String
  serversRunning : Nat
deriving DecidableEq, Repr

/-- Observations made by `check_k3s_cluster_health` (k3s_manager.py):
whether `run_command` itself succeeded, whether its return code was
zero, the parsed JSON cluster list (`none` when `json.loads` raised, in
which case the outer `except` returns false), and the `kubectl
cluster-info` outcome (`none` for `TimeoutExpired`, otherwise whether
the return code was zero). -/
structure ManagerHealthEnv where
  listSucceeds : Bool
  listReturncodeZero : Bool
  clustersJson : Option (List K3sCluster)
  kubectlResult : Option Bool

/-- `check_k3s_cluster_health` (k3s_manager.py lines 59-99).  Returns the
boolean result together with whether any cleanup was invoked; the
function body contains no call to `cleanup_corrupted_k3s_cluster`, so
the second component is false on every path. -/
def check_k3s_cluster_health (env : ManagerHealthEnv) : Bool × Bool :=
  if env.listSucceeds = false then (false, false)
  else if env.listReturncodeZero = false then (false, false)
  else
    match env.clustersJson with
    | none => (false, false)
    | some clusters =>
      match clusters.find? (fun c => c.name = "edge-terrarium") with
      | none => (false, false)
      | some c =>
        if c.serversRunning = 0 then (false, false)
        else
          match env.kubectlResult with
          | none => (false, false)
          | some ok => (ok, false)

/-- Counterexample to C4 for the k3s-manager variant: the cluster is
present in the list with a running server and `kubectl cluster-info`
fails, yet the function merely returns false - it does not trigger any
cleanup (second component false), contradicting the claimed
"returns false and triggers cleanup (delete) of the corrupted
cluster". -/
theorem cluster_health_cex :
    check_k3s_cluster_health
        ⟨true, true, some [⟨"edge-terrarium", 1⟩], some false⟩ =
      (false, false) := by
  decide

/-- C4 (amended): both health-check variants return true exactly when the
existence check and the connectivity check both pass, and false when the
cluster is absent; the deploy-command variant triggers cleanup exactly
when the cluster is present but unreachable, while the k3s-manager
variant never triggers cleanup itself (and also requires a nonzero
`serversRunning`). -/
theorem cluster_health_check_behaviour :
    (∀ env : DeployHealthEnv,
      ((deployCmd_check_k3s_cluster_health env).1 = true ↔
        (∃ out, env.listStdout = some out ∧ strContains out "edge-terrarium" = true) ∧
          env.kubectlOk = true) ∧
      ((deployCmd_check_k3s_cluster_health env).2 = true ↔
        (∃ out, env.listStdout = some out ∧ strContains out "edge-terrarium" = true) ∧
          env.kubectlOk = false)) ∧
    ∀ env : ManagerHealthEnv,
      ((check_k3s_cluster_health env).1 = true ↔
        env.listSucceeds = true ∧ env.listReturncodeZero = true ∧
          (∃ clusters c, env.clustersJson = some clusters ∧
            clusters.find? (fun x => x.name = "edge-terrarium") = some c ∧
            c.serversRunning ≠ 0) ∧
          env.kubectlResult = some true) ∧
      (check_k3s_cluster_health env).2 = false := by
  constructor
  · intro env
    cases env with
    | mk listStdout kubectlOk =>
      cases listStdout with
      | none => simp [deployCmd_check_k3s_cluster_health]
      | some out =>
        cases hc : strContains out "edge-terrarium" with
        | true => cases kubectlOk <;> simp [deployCmd_check_k3s_cluster_health, hc]
        | false => simp [deployCmd_check_k3s_cluster_health, hc]
  · intro env
    cases env with
    | mk ls rc js kr =>
      cases ls with
      | false => simp [check_k3s_cluster_health]
      | true =>
        cases rc with
        | false => simp [check_k3s_cluster_health]
        | true =>
          cases js with
          | none => simp [check_k3s_cluster_health]
          | some clusters =>
            cases hf : clusters.find? (fun x => x.name = "edge-terrarium") with
            | none => simp [check_k3s_cluster_health, hf]
            | some c =>
              by_cases hs : c.serversRunning = 0
              · simp [check_k3s_cluster_health, hf, hs]
              · cases kr with
                | none => simp [check_k3s_cluster_health, hf, hs]
                | some ok =>
                  cases ok <;> simp [check_k3s_cluster_health, hf, hs]

/- ------------------------------------------------------------------ -/
/- Manifest apply ordering.
   Source: src/terrarium_cli/platforms/k3s/k3s_manager.py, deploy_to_k3s
   (lines 439-538; the grouped application is lines 499-538). -/

/-- The `vault_files` set excluded from the grouped phase (they are
applied earlier, in exactly this order). -/
def k3sVaultFiles : List String :=
  ["vault-deployment.yaml", "vault-service.yaml", "vault-pvc.yaml"]

/-- The `exclude_files` set. -/
def k3sExcludeFiles : List String := ["kustomization.yaml", "namespace.yaml"]

/-- Files applied before the grouped phase, in source order: the NGINX
ConfigMap manifest, then the three Vault manifests (deployment, service,
PVC - the source applies the Vault deployment before the Vault PVC). -/
def k3sFixedPrefixFiles : List String := "nginx-configmap.yaml" :: k3sVaultFiles

/-- The `all_files` listing filter: `.yaml` files of the config directory
that are neither Vault files nor excluded files. -/
def k3sAllFiles (files : List String) : List String :=
  files.filter (fun f =>
    strEndsWith f ".yaml" && decide (f ∉ k3sVaultFiles) && decide (f ∉ k3sExcludeFiles))

/-- `pvc_files = [f for f in all_files if 'pvc' in f]`. -/
def k3sPvcFiles (files : List String) : List String :=
  (k3sAllFiles files).filter (fun f => strContains f "pvc")

/-- `configmap_files = [f for f in all_files if 'configmap' in f or 'secret' in f]`. -/
def k3sConfigmapFiles (files : List String) : List String :=
  (k3sAllFiles files).filter (fun f => strContains f "configmap" || strContains f "secret")

/-- `deployment_files = [f for f in all_files if 'deployment' in f]`. -/
def k3sDeploymentFiles (files : List String) : List String :=
  (k3sAllFiles files).filter (fun f => strContains f "deployment")

/-- `service_files = [f for f in all_files if 'service' in f]`. -/
def k3sServiceFiles (files : List String) : List String :=
  (k3sAllFiles files).filter (fun f => strContains f "service")

/-- `other_files`: everything in `all_files` not already in one of the
four groups. -/
def k3sOtherFiles (files : List String) : List String :=
  (k3sAllFiles files).filter (fun f =>
    decide (f ∉ k3sPvcFiles files ++ k3sConfigmapFiles files ++
      k3sDeploymentFiles files ++ k3sServiceFiles files))

/-- The grouped phase: each group applied with `sorted(file_group)`, in
the order PVCs, ConfigMaps/Secrets, Deployments, Services, other. -/
def k3sGroupedFiles (files : List String) : List String :=
  sortStrings (k3sPvcFiles files) ++ (sortStrings (k3sConfigmapFiles files) ++
    (sortStrings (k3sDeploymentFiles files) ++ (sortStrings (k3sServiceFiles files) ++
      sortStrings (k3sOtherFiles files))))

/-- The full sequence of manifest files `deploy_to_k3s` applies, given
the listing `files` of the `configs/k3s` directory (paths reduced to
their file names; listing order is irrelevant because every group is
sorted before being applied). -/
def deploy_to_k3s_applySeq (files : List String) : List String :=
  k3sFixedPrefixFiles ++ k3sGroupedFiles files

/-- Counterexample to C5, in two parts.  First, for the vault service
itself (directory containing vault PVC/ConfigMap/Deployment/Service
files) the fixed prefix applies `vault-deployment.yaml` strictly before
`vault-pvc.yaml`.  Second, for a service literally named "pvc", every
file name contains the substring "pvc", so all four files land in the
PVC group where alphabetical order puts `pvc-deployment.yaml` before
`pvc-pvc.yaml`. -/
theorem apply_order_cex :
    ¬ ((deploy_to_k3s_applySeq
          ["vault-pvc.yaml", "vault-configmap.yaml", "vault-deployment.yaml",
            "vault-service.yaml"]).indexOf "vault-pvc.yaml" <
        (deploy_to_k3s_applySeq
          ["vault-pvc.yaml", "vault-configmap.yaml", "vault-deployment.yaml",
            "vault-service.yaml"]).indexOf "vault-deployment.yaml") ∧
    ¬ ((deploy_to_k3s_applySeq
          ["pvc-pvc.yaml", "pvc-configmap.yaml", "pvc-deployment.yaml",
            "pvc-service.yaml"]).indexOf "pvc-pvc.yaml" <
        (deploy_to_k3s_applySeq
          ["pvc-pvc.yaml", "pvc-configmap.yaml", "pvc-deployment.yaml",
            "pvc-service.yaml"]).indexOf "pvc-deployment.yaml") := by
  decide

/-- C5 (amended): for any manifest listing, a non-Vault PVC file (a
`.yaml` file whose name contains "pvc") is applied strictly before any
Deployment file whose name contains "deployment" but not "pvc" and which
is not one of the specially ordered Vault files.  (The two restrictions
are forced by the counterexample: the Vault files are applied in a fixed
deployment-before-PVC order, and a file name containing both keywords is
classified into the PVC group.) -/
theorem applySeq_pvc_before_deployment (files : List String) (pvcF depF : String)
    (hpmem : pvcF ∈ files) (hpy : strEndsWith pvcF ".yaml" = true)
    (hpv : pvcF ∉ k3sVaultFiles) (hpe : pvcF ∉ k3sExcludeFiles)
    (hpc : strContains pvcF "pvc" = true)
    (hdv : depF ∉ k3sVaultFiles)
    (hdc : strContains depF "deployment" = true)
    (hdnp : strContains depF "pvc" = false) :
    (deploy_to_k3s_applySeq files).indexOf pvcF <
      (deploy_to_k3s_applySeq files).indexOf depF := by
  have hnginxPvc : strContains "nginx-configmap.yaml" "pvc" = false := by decide
  have hnginxDep : strContains "nginx-configmap.yaml" "deployment" = false := by decide
  have hpfix : pvcF ∉ k3sFixedPrefixFiles := by
    intro h
    rcases List.mem_cons.mp h with h | h
    · rw [h, hnginxPvc] at hpc; exact Bool.noConfusion hpc
    · exact hpv h
  have hdfix : depF ∉ k3sFixedPrefixFiles := by
    intro h
    rcases List.mem_cons.mp h with h | h
    · rw [h, hnginxDep] at hdc; exact Bool.noConfusion hdc
    · exact hdv h
  have hpall : pvcF ∈ k3sAllFiles files := by
    unfold k3sAllFiles
    refine List.mem_filter.mpr ⟨hpmem, ?_⟩
    simp [hpy, hpv, hpe]
  have hppvc : pvcF ∈ sortStrings (k3sPvcFiles files) := by
    rw [mem_sortStrings]
    exact List.mem_filter.mpr ⟨hpall, hpc⟩
  have hdpvc : depF ∉ sortStrings (k3sPvcFiles files) := by
    rw [mem_sortStrings]
    intro h
    have := (List.mem_filter.mp h).2
    rw [hdnp] at this
    exact Bool.false_ne_true this
  unfold deploy_to_k3s_applySeq k3sGroupedFiles
  rw [List.indexOf_append_of_not_mem hpfix, List.indexOf_append_of_not_mem hdfix]
  apply Nat.add_lt_add_left
  rw [List.indexOf_append_of_mem hppvc, List.indexOf_append_of_not_mem hdpvc]
  exact lt_of_lt_of_le (List.indexOf_lt_length.mpr hppvc) (Nat.le_add_right _ _)

/-- Witness for the amended C5 at a normal four-file resource set for
the service `logthon`. -/
theorem applySeq_pvc_before_deployment_witness :
    "logthon-pvc.yaml" ∈
        ["logthon-service.yaml", "logthon-deployment.yaml", "logthon-pvc.yaml",
          "logthon-configmap.yaml"] ∧
      strEndsWith "logthon-pvc.yaml" ".yaml" = true ∧
      "logthon-pvc.yaml" ∉ k3sVaultFiles ∧
      "logthon-pvc.yaml" ∉ k3sExcludeFiles ∧
      strContains "logthon-pvc.yaml" "pvc" = true ∧
      "logthon-deployment.yaml" ∉ k3sVaultFiles ∧
      strContains "logthon-deployment.yaml" "deployment" = true ∧
      strContains "logthon-deployment.yaml" "pvc" = false ∧
      (deploy_to_k3s_applySeq
          ["logthon-service.yaml", "logthon-deployment.yaml", "logthon-pvc.yaml",
            "logthon-configmap.yaml"]).indexOf "logthon-pvc.yaml" <
        (deploy_to_k3s_applySeq
          ["logthon-service.yaml", "logthon-deployment.yaml", "logthon-pvc.yaml",
            "logthon-configmap.yaml"]).indexOf "logthon-deployment.yaml" :=
  ⟨by decide, by decide, by decide, by decide, by decide, by decide, by decide, by decide,
    applySeq_pvc_before_deployment _ _ _ (by decide) (by decide) (by decide) (by decide)
      (by decide) (by decide) (by decide) (by decide)⟩

/- ------------------------------------------------------------------ -/
/- Image build and import.
   Source: src/terrarium_cli/core/deployment/common.py, build_app_images
   (lines 45-66; deploy.py _build_app_images lines 84-105 is identical),
   and src/terrarium_cli/cli/commands/deploy.py, _build_and_import_images
   (lines 295-338). -/

/-- The `docker` section of an app as the build/import code reads it.
`build_context` is `None` or a string; the loader defaults the field, and
the import step tests its Python truthiness. -/
structure DockerCfg where
  build_context : Option String
  image_name : String
  tag : String
deriving DecidableEq, Repr

/-- An app as seen by the build/import steps. -/
structure AppBuild where
  name : String
  docker : DockerCfg
deriving DecidableEq, Repr

/-- Python truthiness of `app.docker.build_context`: `None` and the empty
string are falsy. -/
def truthyCtx : Option String → Bool
  | none => false
  | some s => decide (s ≠ "")

/-- One `docker build` invocation: the image tag and file arguments
`docker build -t {image_name}:{tag} -f apps/{name}/Dockerfile apps/{name}`. -/
structure BuildCmd where
  tag : String
  dockerfile : String
  context : String
deriving DecidableEq, Repr

/-- The build command `build_app_images` issues for one app. -/
def buildCmdOf (a : AppBuild) : BuildCmd :=
  { tag := a.docker.image_name ++ ":" ++ a.docker.tag
    dockerfile := "apps/" ++ a.name ++ "/Dockerfile"
    context := "apps/" ++ a.name }

/-- `build_app_images(apps)`: issues a `docker build` for EVERY app in
list order, with no check of the build source; a failing build raises
`ShellError`, which is caught and turns into a `False` result after the
failing command was already issued.  `buildOk` tells which apps' builds
succeed.  Returns the overall result and the list of issued build
commands. -/
def build_app_images (buildOk : String → Bool) : List AppBuild → Bool × List BuildCmd
  | [] => (true, [])
  | a :: rest =>
    if buildOk a.name then
      ((build_app_images buildOk rest).1, buildCmdOf a :: (build_app_images buildOk rest).2)
    else (false, [buildCmdOf a])

/-- What the import loop of `_build_and_import_images` does with one app. -/
inductive ImportAction where
  | skipOfficial (name image : String)
  | skipNotLocal (name : String)
  | doImport (name image : String)
deriving DecidableEq, Repr

/-- The import decision for one app: apps without a truthy
`build_context` are skipped with the `Skipping {name} - using official
image {image_name}:{tag}` log line; apps whose image is not found locally
are skipped with a warning; otherwise `k3d image import` runs. -/
def importActionOf (localPresent : String → Bool) (a : AppBuild) : ImportAction :=
  if truthyCtx a.docker.build_context = false then
    .skipOfficial a.name (a.docker.image_name ++ ":" ++ a.docker.tag)
  else if localPresent a.name = false then .skipNotLocal a.name
  else .doImport a.name (a.docker.image_name ++ ":" ++ a.docker.tag)

/-- The import phase over all apps. -/
def import_actions (localPresent : String → Bool) (apps : List AppBuild) :
    List ImportAction :=
  apps.map (importActionOf localPresent)

/-- Counterexample to C6: a pre-built app (no build source, e.g. a stock
`postgres` image) is NOT skipped by the build step - `build_app_images`
issues a `docker build` for it anyway, and if that build fails (there is
no `apps/postgres-db/Dockerfile`) the build step returns failure. -/
theorem build_step_cex :
    truthyCtx (AppBuild.docker ⟨"postgres-db", ⟨none, "postgres", "15"⟩⟩).build_context
        = false ∧
      (build_app_images (fun _ => true)
          [⟨"postgres-db", ⟨none, "postgres", "15"⟩⟩]).2 =
        [{ tag := "postgres:15", dockerfile := "apps/postgres-db/Dockerfile",
            context := "apps/postgres-db" }] ∧
      (build_app_images (fun _ => false)
          [⟨"postgres-db", ⟨none, "postgres", "15"⟩⟩]).1 = false := by
  refine ⟨by decide, by decide, by decide⟩

/-- C6 (amended): the build step invokes the builder with the
deterministic tag `image_name:tag` for every service, build source or
not; the skip-instead-of-fail behaviour with the "using official image"
log line belongs to the import step, which skips every service without a
truthy build source. -/
theorem build_and_import_behaviour (apps : List AppBuild)
    (buildOk localPresent : String → Bool)
    (hall : ∀ a ∈ apps, buildOk a.name = true) :
    build_app_images buildOk apps = (true, apps.map buildCmdOf) ∧
      ∀ a ∈ apps, truthyCtx a.docker.build_context = false →
        importActionOf localPresent a =
          .skipOfficial a.name (a.docker.image_name ++ ":" ++ a.docker.tag) := by
  constructor
  · induction apps with
    | nil => rfl
    | cons a rest ih =>
      have ha := hall a (List.mem_cons_self a rest)
      have hrest := ih (fun x hx => hall x (List.mem_cons_of_mem a hx))
      simp [build_app_images, ha, hrest]
  · intro a _ hctx
    simp [importActionOf, hctx]

/-- Witness for the amended C6 with one buildable app and one pre-built
app. -/
theorem build_and_import_behaviour_witness :
    (∀ a ∈ ([⟨"logthon", ⟨some "apps/logthon", "edge-terrarium-logthon", "latest"⟩⟩,
        ⟨"postgres-db", ⟨none, "postgres", "15"⟩⟩] : List AppBuild),
      (fun _ => true) a.name = true) ∧
      (build_app_images (fun _ => true)
          [⟨"logthon", ⟨some "apps/logthon", "edge-terrarium-logthon", "latest"⟩⟩,
            ⟨"postgres-db", ⟨none, "postgres", "15"⟩⟩] =
        (true, ([⟨"logthon", ⟨some "apps/logthon", "edge-terrarium-logthon", "latest"⟩⟩,
            ⟨"postgres-db", ⟨none, "postgres", "15"⟩⟩] : List AppBuild).map buildCmdOf) ∧
        ∀ a ∈ ([⟨"logthon", ⟨some "apps/logthon", "edge-terrarium-logthon", "latest"⟩⟩,
            ⟨"postgres-db", ⟨none, "postgres", "15"⟩⟩] : List AppBuild),
          truthyCtx a.docker.build_context = false →
            importActionOf (fun _ => true) a =
              .skipOfficial a.name (a.docker.image_name ++ ":" ++ a.docker.tag)) :=
  ⟨by decide, build_and_import_behaviour _ _ _ (by decide)⟩

/- ------------------------------------------------------------------ -/
/- Port-forward tunnels.
   Source: src/terrarium_cli/cli/commands/deploy.py,
   _setup_k3s_port_forwarding (lines 657-709); k3s_manager.py's
   setup_k3s_port_forwarding delegates to this method. -/

/-- The runtime config fields the tunnel code reads. -/
structure RuntimeCfg where
  port : Nat
  port_forward : Option Nat
deriving DecidableEq, Repr

/-- An app as seen by the tunnel code. -/
structure AppPF where
  name : String
  runtime : RuntimeCfg
deriving DecidableEq, Repr

/-- One background `kubectl port-forward` process:
`svc/{service} {localPort}:{remotePort}`. -/
structure Tunnel where
  service : String
  localPort : Nat
  remotePort : Nat
deriving DecidableEq, Repr

/-- Python truthiness of `app.runtime.port_forward` (`if
app.runtime.port_forward:`): `None` and `0` are falsy. -/
def truthyPort : Option Nat → Bool
  | none => false
  | some p => decide (p ≠ 0)

/-- The fixed gateway tunnel `svc/nginx 8443:443`, always started first. -/
def gatewayTunnel : Tunnel := ⟨"nginx", 8443, 443⟩

/-- The direct tunnel for an app that declares a forwarded port:
`svc/{name} {port_forward}:{port}`. -/
def directTunnelOf (a : AppPF) : Tunnel :=
  ⟨a.name, a.runtime.port_forward.getD 0, a.runtime.port⟩

/-- `_setup_k3s_port_forwarding`: after killing stale processes and
clearing the handle list, starts the NGINX gateway tunnel, then one
direct tunnel per app with a truthy `port_forward`.  Returns the final
process list. -/
def setup_k3s_port_forwarding (apps : List AppPF) : List Tunnel :=
  gatewayTunnel ::
    (apps.filter (fun a => truthyPort a.runtime.port_forward)).map directTunnelOf

/-- C7: the tunnel list always starts with exactly one gateway tunnel on
the fixed local port 8443, independent of the apps, and contains exactly
one additional direct tunnel for each app that declares a (truthy)
forwarded local port, mapping its declared local port to its service
port. -/
theorem port_forwarding_tunnels (apps : List AppPF) :
    (setup_k3s_port_forwarding apps).head? = some gatewayTunnel ∧
      gatewayTunnel.localPort = 8443 ∧
      (setup_k3s_port_forwarding apps).length =
        1 + (apps.filter (fun a => truthyPort a.runtime.port_forward)).length ∧
      List.tail (setup_k3s_port_forwarding apps) =
        (apps.filter (fun a => truthyPort a.runtime.port_forward)).map directTunnelOf ∧
      ∀ a ∈ apps, truthyPort a.runtime.port_forward = true →
        directTunnelOf a ∈ List.tail (setup_k3s_port_forwarding apps) := by
  refine ⟨rfl, rfl, by simp [setup_k3s_port_forwarding, Nat.add_comm], rfl, ?_⟩
  intro a ha hpf
  exact List.mem_map_of_mem _ (List.mem_filter.mpr ⟨ha, hpf⟩)

/-- Witness for C7 at a concrete app list with one declared forward, one
zero forward and one absent forward. -/
theorem port_forwarding_tunnels_witness :
    (setup_k3s_port_forwarding
        [⟨"logthon", ⟨5000, some 5001⟩⟩, ⟨"file-storage", ⟨9000, none⟩⟩,
          ⟨"test-db-app", ⟨8080, some 0⟩⟩]).head? = some gatewayTunnel ∧
      gatewayTunnel.localPort = 8443 ∧
      (setup_k3s_port_forwarding
        [⟨"logthon", ⟨5000, some 5001⟩⟩, ⟨"file-storage", ⟨9000, none⟩⟩,
          ⟨"test-db-app", ⟨8080, some 0⟩⟩]).length =
        1 + (([⟨"logthon", ⟨5000, some 5001⟩⟩, ⟨"file-storage", ⟨9000, none⟩⟩,
          ⟨"test-db-app", ⟨8080, some 0⟩⟩] : List AppPF).filter
            (fun a => truthyPort a.runtime.port_forward)).length ∧
      List.tail (setup_k3s_port_forwarding
        [⟨"logthon", ⟨5000, some 5001⟩⟩, ⟨"file-storage", ⟨9000, none⟩⟩,
          ⟨"test-db-app", ⟨8080, some 0⟩⟩]) =
        (([⟨"logthon", ⟨5000, some 5001⟩⟩, ⟨"file-storage", ⟨9000, none⟩⟩,
          ⟨"test-db-app", ⟨8080, some 0⟩⟩] : List AppPF).filter
            (fun a => truthyPort a.runtime.port_forward)).map directTunnelOf ∧
      ∀ a ∈ ([⟨"logthon", ⟨5000, some 5001⟩⟩, ⟨"file-storage", ⟨9000, none⟩⟩,
          ⟨"test-db-app", ⟨8080, some 0⟩⟩] : List AppPF),
        truthyPort a.runtime.port_forward = true →
          directTunnelOf a ∈ List.tail (setup_k3s_port_forwarding
            [⟨"logthon", ⟨5000, some 5001⟩⟩, ⟨"file-storage", ⟨9000, none⟩⟩,
              ⟨"test-db-app", ⟨8080, some 0⟩⟩]) :=
  port_forwarding_tunnels _

/- ------------------------------------------------------------------ -/
/- Compose bring-up and Vault bootstrap.
   Source: src/terrarium_cli/platforms/docker/docker_manager.py,
   start_docker_services (lines 58-100), and
   src/terrarium_cli/cli/commands/deploy.py, _start_docker_services
   (lines 340-393). -/

/-- Observable events of the compose bring-up, in program order. -/
inductive DockerEvent where
  | startVaultOnly      -- `docker-compose ... up -d vault`
  | sleepTwo            -- `time.sleep(2)`
  | statusPoll (i : Nat) -- the i-th Vault status check
  | warnNotReady        -- the "Vault may not be ready, continuing" warning
  | startAll            -- `docker-compose ... up -d` (all services)
deriving DecidableEq, Repr

/-- Recognizer for poll events. -/
def isPoll : DockerEvent → Bool
  | .statusPoll _ => true
  | _ => false

/-- Recognizer for sleep events. -/
def isSleep : DockerEvent → Bool
  | .sleepTwo => true
  | _ => false

/-- The readiness test of the docker-manager poll: `"healthy" in
result.stdout or "Up" in result.stdout` (`none` models the broad
`except: continue`). -/
def pollReady (psStdout : Nat → Option String) (i : Nat) : Bool :=
  match psStdout i with
  | none => false
  | some out => strContains out "healthy" || strContains out "Up"

/-- The `while attempt < max_attempts and not vault_ready` loop of
`start_docker_services`: each iteration increments the attempt counter,
sleeps 2 seconds, then checks the status; a ready result breaks.
Arguments: attempts remaining, attempts already made.  Returns whether
Vault became ready plus the events of the loop. -/
def vaultWaitLoop (readyAt : Nat → Bool) : Nat → Nat → Bool × List DockerEvent
  | 0, _ => (false, [])
  | remaining + 1, attempt =>
    if readyAt (attempt + 1) then (true, [.sleepTwo, .statusPoll (attempt + 1)])
    else
      ((vaultWaitLoop readyAt remaining (attempt + 1)).1,
        .sleepTwo :: .statusPoll (attempt + 1) ::
          (vaultWaitLoop readyAt remaining (attempt + 1)).2)

/-- `start_docker_services` (docker_manager.py lines 58-100): starts only
the Vault service, polls its `ps` status with `max_attempts = 30`, warns
and continues when Vault never reported ready, and returns True; a
failing `up -d vault` raises `ShellError`, caught into a False result. -/
def start_docker_services (vaultUpOk : Bool) (psStdout : Nat → Option String) :
    Bool × List DockerEvent :=
  if vaultUpOk = false then (false, [.startVaultOnly])
  else
    (true,
      .startVaultOnly :: ((vaultWaitLoop (pollReady psStdout) 30 0).2 ++
        (if (vaultWaitLoop (pollReady psStdout) 30 0).1 then [] else [.warnNotReady])))

/-- The `for i in range(30)` poll of `_start_docker_services`
(deploy.py): checks `vault status` first, breaks on exit code 0, sleeps
2 seconds between attempts (not after the last), and the for-else
emits the warning.  Arguments: attempts remaining, Python loop index. -/
def deployVaultWaitLoop (okAt : Nat → Bool) : Nat → Nat → Bool × List DockerEvent
  | 0, _ => (false, [])
  | remaining + 1, i =>
    if okAt i then (true, [.statusPoll i])
    else if remaining = 0 then (false, [.statusPoll i])
    else
      ((deployVaultWaitLoop okAt remaining (i + 1)).1,
        .statusPoll i :: .sleepTwo :: (deployVaultWaitLoop okAt remaining (i + 1)).2)

/-- `_start_docker_services` (deploy.py lines 340-393): starts only
Vault, runs the 30-attempt poll, warns and continues when Vault never
became ready, then (after Vault initialization, not modelled) starts all
remaining services with one `up -d`; `restOk` is whether that final
command succeeds. -/
def deployCmd_start_docker_services (vaultUpOk : Bool) (okAt : Nat → Bool)
    (restOk : Bool) : Bool × List DockerEvent :=
  if vaultUpOk = false then (false, [.startVaultOnly])
  else
    (restOk,
      .startVaultOnly :: (((deployVaultWaitLoop okAt 30 0).2 ++
        (if (deployVaultWaitLoop okAt 30 0).1 then [] else [.warnNotReady])) ++
          [.startAll]))

theorem vaultWaitLoop_counts (readyAt : Nat → Bool) :
    ∀ remaining attempt,
      (vaultWaitLoop readyAt remaining attempt).2.countP isPoll ≤ remaining ∧
        (vaultWaitLoop readyAt remaining attempt).2.countP isSleep =
          (vaultWaitLoop readyAt remaining attempt).2.countP isPoll := by
  intro remaining
  induction remaining with
  | zero => intro attempt; simp [vaultWaitLoop]
  | succ remaining ih =>
    intro attempt
    rw [vaultWaitLoop]
    by_cases h : readyAt (attempt + 1) = true
    · rw [if_pos h]; simp [List.countP_cons, isPoll, isSleep]
    · rw [if_neg h]
      obtain ⟨ih1, ih2⟩ := ih (attempt + 1)
      constructor
      · simp only [List.countP_cons, isPoll, isSleep]
        simp only [if_true, if_false, reduceCtorEq, reduceIte]
        omega
      · simp only [List.countP_cons, isPoll, isSleep]
        simp only [if_true, if_false, reduceCtorEq, reduceIte]
        omega

theorem vaultWaitLoop_never (readyAt : Nat → Bool)
    (hnever : ∀ i, readyAt i = false) :
    ∀ remaining attempt, (vaultWaitLoop readyAt remaining attempt).1 = false := by
  intro remaining
  induction remaining with
  | zero => intro attempt; rfl
  | succ remaining ih =>
    intro attempt
    rw [vaultWaitLoop]
    rw [if_neg (by simp [hnever])]
    exact ih (attempt + 1)

theorem deployVaultWaitLoop_counts (okAt : Nat → Bool) :
    ∀ remaining i,
      (deployVaultWaitLoop okAt remaining i).2.countP isPoll ≤ remaining := by
  intro remaining
  induction remaining with
  | zero => intro i; simp [deployVaultWaitLoop]
  | succ remaining ih =>
    intro i
    rw [deployVaultWaitLoop]
    by_cases h : okAt i = true
    · rw [if_pos h]; simp [List.countP_cons, isPoll]
    · rw [if_neg h]
      by_cases hr : remaining = 0
      · rw [if_pos hr]; simp [List.countP_cons, isPoll]
      · rw [if_neg hr]
        have ih1 := ih (i + 1)
        simp only [List.countP_cons, isPoll, isSleep]
        simp only [if_true, if_false, reduceCtorEq, reduceIte]
        omega

theorem deployVaultWaitLoop_never (okAt : Nat → Bool)
    (hnever : ∀ i, okAt i = false) :
    ∀ remaining i, (deployVaultWaitLoop okAt remaining i).1 = false := by
  intro remaining
  induction remaining with
  | zero => intro i; rfl
  | succ remaining ih =>
    intro i
    rw [deployVaultWaitLoop]
    rw [if_neg (by simp [hnever])]
    by_cases hr : remaining = 0
    · rw [if_pos hr]
    · rw [if_neg hr]; exact ih (i + 1)

/-- C8: when `up -d vault` succeeds, both compose bring-up variants
start only the Vault service first, poll its status at most 30 times
with one 2-second sleep per docker-manager poll, and - when Vault never
reports ready - emit the warning and still continue: the docker-manager
variant returns True, and the deploy-command variant proceeds to start
all remaining services as its final step, succeeding whenever that last
command does. -/
theorem compose_vault_bootstrap (psStdout : Nat → Option String)
    (okAt : Nat → Bool) :
    ((start_docker_services true psStdout).1 = true ∧
      (start_docker_services true psStdout).2.head? = some .startVaultOnly ∧
      (start_docker_services true psStdout).2.countP isPoll ≤ 30 ∧
      (start_docker_services true psStdout).2.countP isSleep =
        (start_docker_services true psStdout).2.countP isPoll ∧
      ((∀ i, pollReady psStdout i = false) →
        DockerEvent.warnNotReady ∈ (start_docker_services true psStdout).2)) ∧
    ((deployCmd_start_docker_services true okAt true).1 = true ∧
      (deployCmd_start_docker_services true okAt true).2.head? =
        some .startVaultOnly ∧
      (deployCmd_start_docker_services true okAt true).2.countP isPoll ≤ 30 ∧
      (deployCmd_start_docker_services true okAt true).2.getLast? =
        some .startAll ∧
      ((∀ i, okAt i = false) →
        DockerEvent.warnNotReady ∈ (deployCmd_start_docker_services true okAt true).2)) := by
  constructor
  · refine ⟨rfl, rfl, ?_, ?_, ?_⟩
    · have h := vaultWaitLoop_counts (pollReady psStdout) 30 0
      simp only [start_docker_services, if_neg (by simp : ¬ true = false)]
      by_cases hb : (vaultWaitLoop (pollReady psStdout) 30 0).1 <;>
        simp [hb, List.countP_cons, List.countP_append, isPoll, isSleep] <;>
        omega
    · have h := vaultWaitLoop_counts (pollReady psStdout) 30 0
      simp only [start_docker_services, if_neg (by simp : ¬ true = false)]
      by_cases hb : (vaultWaitLoop (pollReady psStdout) 30 0).1 <;>
        simp [hb, List.countP_cons, List.countP_append, isPoll, isSleep] <;>
        omega
    · intro hnever
      have h := vaultWaitLoop_never (pollReady psStdout) hnever 30 0
      simp [start_docker_services, h]
  · refine ⟨rfl, rfl, ?_, ?_, ?_⟩
    · have h := deployVaultWaitLoop_counts okAt 30 0
      simp only [deployCmd_start_docker_services, if_neg (by simp : ¬ true = false)]
      by_cases hb : (deployVaultWaitLoop okAt 30 0).1 <;>
        simp [hb, List.countP_cons, List.countP_append, isPoll] <;>
        omega
    · show (DockerEvent.startVaultOnly ::
          (((deployVaultWaitLoop okAt 30 0).2 ++
            (if (deployVaultWaitLoop okAt 30 0).1 then []
              else [DockerEvent.warnNotReady])) ++
            [DockerEvent.startAll])).getLast? = some DockerEvent.startAll
      rw [← List.cons_append, List.getLast?_concat]
    · intro hnever
      have h := deployVaultWaitLoop_never okAt hnever 30 0
      simp [deployCmd_start_docker_services, h]

/-- Witness for C8: with Vault started and a status probe that never
reports ready, both variants warn and still succeed. -/
theorem compose_vault_bootstrap_witness :
    (start_docker_services true (fun _ => none)).1 = true ∧
      DockerEvent.warnNotReady ∈ (start_docker_services true (fun _ => none)).2 ∧
      (deployCmd_start_docker_services true (fun _ => false) true).1 = true ∧
      DockerEvent.warnNotReady ∈
        (deployCmd_start_docker_services true (fun _ => false) true).2 := by
  have h := compose_vault_bootstrap (fun _ => none) (fun _ => false)
  exact ⟨h.1.1, h.1.2.2.2.2 (fun i => rfl), h.2.1, h.2.2.2.2.2 (fun i => rfl)⟩

/- ------------------------------------------------------------------ -/
/- Health verifier.
   Source: src/terrarium_cli/cli/commands/deploy.py, _verify_service_health
   (lines 456-516), and the textually identical
   src/terrarium_cli/platforms/k3s/k3s_manager.py, verify_service_health
   (lines 244-304). -/

/-- One health-check entry (`path` and `port`) of an app's
`health_checks` dict. -/
structure HealthCheckCfg where
  path : String
  port : Nat
deriving DecidableEq, Repr

/-- An app as the health verifier reads it: its name, the optional
`readiness` and `liveness` entries of `health_checks`, and whether the
dict has further keys (for its Python truthiness). -/
structure AppHealth where
  name : String
  readiness : Option HealthCheckCfg
  liveness : Option HealthCheckCfg
  hasOtherKeys : Bool
deriving DecidableEq, Repr

/-- Everything `_verify_service_health` observes: the loaded apps, the
service under test, the result of the pod-name lookup (`none` when the
`kubectl get pods` command raised `ShellError`, otherwise its stripped
stdout), whether `which curl` succeeds inside the pod, and whether the
in-pod health curl exits zero. -/
structure VerifyEnv where
  apps : List AppHealth
  service : String
  podLookup : Option String
  curlAvailable : Bool
  curlHealthOk : Bool
deriving Repr

/-- How one invocation of the health verifier ended (each constructor is
one of the printed log lines). -/
inductive VerifyOutcome where
  | noHealthCheckConfigured
  | noSuitableHealthCheck
  | couldNotPerform
  | podNotFound
  | healthCheckFailed
  | passed
deriving DecidableEq, Repr

/-- `_verify_service_health(service_name, apps)`: scans `apps` for the
service, skips when no (truthy) `health_checks` dict or neither a
readiness nor a liveness entry exists, then looks up the pod, probes
curl availability and the health endpoint, printing an outcome in every
branch; the function body ends with a bare `return` on every path and
both `ShellError` sites are wrapped in `try`/`except`, so the Python
return value - the first component here - is always `None`. -/
def verify_service_health (env : VerifyEnv) : Option Bool × VerifyOutcome :=
  match env.apps.find? (fun a => a.name = env.service) with
  | none => (none, .noHealthCheckConfigured)
  | some app =>
    if (app.readiness.isSome || app.liveness.isSome || app.hasOtherKeys) = false then
      (none, .noHealthCheckConfigured)
    else
      match app.readiness.orElse (fun _ => app.liveness) with
      | none => (none, .noSuitableHealthCheck)
      | some _ =>
        match env.podLookup with
        | none => (none, .couldNotPerform)
        | some pod =>
          if pod = "" then (none, .podNotFound)
          else if env.curlAvailable = false then (none, .healthCheckFailed)
          else if env.curlHealthOk = false then (none, .healthCheckFailed)
          else (none, .passed)

/-- Counterexample to C9: even on a fully healthy input (service found,
readiness check configured, pod found, curl available, probe passing)
the verifier returns `None`, not a boolean - its `-> None` body has no
`return True`/`return False` statement on any path. -/
theorem health_verifier_cex :
    (verify_service_health
        ⟨[⟨"logthon", some ⟨"/health", 5000⟩, none, false⟩], "logthon",
          some "logthon-pod-1", true, true⟩).2 = .passed ∧
      (verify_service_health
        ⟨[⟨"logthon", some ⟨"/health", 5000⟩, none, false⟩], "logthon",
          some "logthon-pod-1", true, true⟩).1 = none ∧
      ∀ b : Bool, (verify_service_health
        ⟨[⟨"logthon", some ⟨"/health", 5000⟩, none, false⟩], "logthon",
          some "logthon-pod-1", true, true⟩).1 ≠ some b := by
  refine ⟨by decide, by decide, by decide⟩

/-- C9 (amended): the health verifier never raises and never returns a
value: on every input - including every failure mode - it returns
`None` (all failures are only logged), and its success log line appears
exactly when every step of the probe succeeds. -/
theorem health_verifier_total (env : VerifyEnv) :
    (verify_service_health env).1 = none ∧
      ((verify_service_health env).2 = .passed ↔
        ∃ app pod, env.apps.find? (fun a => a.name = env.service) = some app ∧
          (app.readiness.orElse (fun _ => app.liveness)).isSome = true ∧
          env.podLookup = some pod ∧ pod ≠ "" ∧
          env.curlAvailable = true ∧ env.curlHealthOk = true) := by
  obtain ⟨apps, service, podLookup, curlAvailable, curlHealthOk⟩ := env
  cases hf : apps.find? (fun a => a.name = service) with
  | none => simp [verify_service_health, hf]
  | some app =>
    by_cases htr : (app.readiness.isSome || app.liveness.isSome || app.hasOtherKeys) = false
    · have hro : app.readiness = none := by
        cases hr : app.readiness <;> simp [hr] at htr ⊢
      have hlo : app.liveness = none := by
        cases hl : app.liveness <;> [skip; simp [hl] at htr] ; rfl
      simp only [verify_service_health, hf, htr, hro, hlo]
      split <;> simp [Option.orElse, hro, hlo]
    · cases hor : app.readiness.orElse (fun _ => app.liveness) with
      | none =>
        have : app.readiness = none ∧ app.liveness = none := by
          cases hr : app.readiness <;> cases hl : app.liveness <;>
            simp [hr, hl, Option.orElse] at hor ⊢
        simp only [verify_service_health, hf, htr, hor, this.1, this.2]
        split <;> simp [Option.orElse, this.1, this.2]
      | some hc =>
        cases podLookup with
        | none => simp [verify_service_health, hf, htr, hor]
        | some pod =>
          by_cases hp : pod = ""
          · simp [verify_service_health, hf, htr, hor, hp]
          · cases curlAvailable with
            | false => simp [verify_service_health, hf, htr, hor, hp]
            | true =>
              cases curlHealthOk with
              | false => simp [verify_service_health, hf, htr, hor, hp]
              | true => simp [verify_service_health, hf, htr, hor, hp]

/- ------------------------------------------------------------------ -/
/- Vault secrets loading.
   Source: src/terrarium_cli/cli/commands/vault.py, _load_secrets_from_file
   (lines 250-297), _get_default_secrets (lines 279-297 region) and
   _store_secrets (lines 232-248). -/

/-- A stored secret record: hierarchical path paired with its key/value
data. -/
abbrev SecretsMap := List (String × List (String × String))

/-- What `_load_secrets_from_file` can observe about
`configs/vault-secrets.yml`: the file is missing, reading/parsing it (or
the `'secrets' in config` test on a non-container) raised an exception,
or it parsed, with or without a `secrets` key. -/
inductive SecretsFileState where
  | missing
  | unparseable
  | parsed (hasSecretsKey : Bool) (secrets : SecretsMap)

/-- `_get_default_secrets()`: the fixed built-in fallback secrets. -/
def default_secrets : SecretsMap :=
  [("custom-client/config",
      [("api_key", "mock-api-key-12345"),
        ("database_url", "postgresql://user:pass@db:5432/app"),
        ("jwt_secret", "mock-jwt-secret-67890"),
        ("encryption_key", "mock-encryption-key-abcdef"),
        ("log_level", "INFO"),
        ("max_connections", "100")]),
    ("custom-client/external-apis",
      [("file_storage_url", "http://file-storage:9000"),
        ("logthon_url", "http://logthon:5000")]),
    ("terrarium/tls",
      [("cert", "mock-tls-cert"), ("key", "mock-tls-key")])]

/-- `_load_secrets_from_file()`: returns the parsed `secrets` section
when the file exists, parses, and has one; in every other case (missing
file, parse failure, no `secrets` key) it prints a warning and returns
the hardcoded defaults - it never raises. `_store_secrets` then stores
whatever this returns, so Vault initialization proceeds on the fallback
path like on the normal one. -/
def load_secrets_from_file : SecretsFileState → SecretsMap
  | .missing => default_secrets
  | .unparseable => default_secrets
  | .parsed false _ => default_secrets
  | .parsed true s => s

/-- C10: whenever the secrets file is missing, unparseable or lacks a
`secrets` section, loading does not fail: it returns exactly the
hardcoded default secrets, which include the mock API key, database URL,
JWT secret and TLS material. -/
theorem vault_secrets_fallback (st : SecretsFileState)
    (h : st = .missing ∨ st = .unparseable ∨ ∃ s, st = .parsed false s) :
    load_secrets_from_file st = default_secrets ∧
      (∃ cfg, ("custom-client/config", cfg) ∈ load_secrets_from_file st ∧
        ("api_key", "mock-api-key-12345") ∈ cfg ∧
        ("database_url", "postgresql://user:pass@db:5432/app") ∈ cfg ∧
        ("jwt_secret", "mock-jwt-secret-67890") ∈ cfg) ∧
      ∃ tls, ("terrarium/tls", tls) ∈ load_secrets_from_file st ∧
        ("cert", "mock-tls-cert") ∈ tls ∧ ("key", "mock-tls-key") ∈ tls := by
  have hload : load_secrets_from_file st = default_secrets := by
    rcases h with h | h | ⟨s, h⟩ <;> rw [h] <;> rfl
  rw [hload]
  refine ⟨rfl, ?_, ?_⟩
  · exact ⟨[("api_key", "mock-api-key-12345"),
      ("database_url", "postgresql://user:pass@db:5432/app"),
      ("jwt_secret", "mock-jwt-secret-67890"),
      ("encryption_key", "mock-encryption-key-abcdef"),
      ("log_level", "INFO"), ("max_connections", "100")],
      by decide, by decide, by decide, by decide⟩
  · exact ⟨[("cert", "mock-tls-cert"), ("key", "mock-tls-key")],
      by decide, by decide, by decide⟩

/-- Witness for C10 at the missing-file state. -/
theorem vault_secrets_fallback_witness :
    (SecretsFileState.missing = .missing ∨
        SecretsFileState.missing = .unparseable ∨
        ∃ s, SecretsFileState.missing = .parsed false s) ∧
      (load_secrets_from_file .missing = default_secrets ∧
        (∃ cfg, ("custom-client/config", cfg) ∈ load_secrets_from_file .missing ∧
          ("api_key", "mock-api-key-12345") ∈ cfg ∧
          ("database_url", "postgresql://user:pass@db:5432/app") ∈ cfg ∧
          ("jwt_secret", "mock-jwt-secret-67890") ∈ cfg) ∧
        ∃ tls, ("terrarium/tls", tls) ∈ load_secrets_from_file .missing ∧
          ("cert", "mock-tls-cert") ∈ tls ∧ ("key", "mock-tls-key") ∈ tls) :=
  ⟨Or.inl rfl, vault_secrets_fallback _ (Or.inl rfl)⟩
